import Mathlib

/-!
Shallow embedding of the cpu-process-profiler Sensu check plugin
(src/main.go). The source file contains two concatenated revisions of the
program; their numeric sampler (`executeCheck`) and argument validation
(`checkArgs`) are identical, while the process ranker exists in two
variants: an external-command/text-parsing one (`getTopCPUProcesses` +
`parseProcessOutput`, first revision) and a direct per-process query one
(second revision). Both rankers end with the same `sort.Slice` +
truncate-to-10 step.

Modelling conventions:
  - Go `float64` arithmetic is modelled over `ℚ` (exact); the spec itself
    states its numeric properties only up to floating-point epsilon.
  - Go strings are modelled as `String` / `List Char`; the Go library
    splitting, trimming and field helpers are re-implemented structurally
    below with the semantics documented for each.
  - `strconv.ParseFloat` and `strconv.Atoi` are modelled on their decimal
    forms (optional sign, digits, fraction, exponent); the special float
    spellings (inf, nan, hex, digit-group underscores) and the float range
    error do not occur in the inputs of interest and are outside the model.
  - Fallible effects (taking a CPU snapshot, running the external command,
    querying a process) are inputs of the embedded functions, as `Option`
    or `Except` values.
  - Go `sort.Slice` is documented as an unstable sort: the only contract is
    that the result is some permutation of the input that is sorted by the
    supplied comparator. The ranker is therefore embedded as a relation
    between its input and its set of allowed results (`isSortSliceResult`),
    with `List.insertionSort` supplying one concrete allowed result for
    totality and witnesses.
-/

attribute [local semireducible] Rat.add Rat.sub Rat.mul Rat.inv

namespace CpuProfiler

/-- Decidable equality on fallible results, used to evaluate the embedded
functions on concrete inputs. -/
instance {ε α : Type} [DecidableEq ε] [DecidableEq α] : DecidableEq (Except ε α) :=
  fun a b =>
    match a, b with
    | .ok x, .ok y =>
      if h : x = y then .isTrue (by rw [h]) else .isFalse (by simp [h])
    | .error x, .error y =>
      if h : x = y then .isTrue (by rw [h]) else .isFalse (by simp [h])
    | .ok _, .error _ => .isFalse (by simp)
    | .error _, .ok _ => .isFalse (by simp)

/-! ### Text primitives (Go strings and strconv helpers) -/

/-- Splitting on a single separator character, as Go `strings.Split` with a
one-character separator: the substrings between occurrences of the
separator, empties included; the empty input yields one empty field. -/
def splitOnChar (sep : Char) : List Char → List (List Char)
  | [] => [[]]
  | c :: rest =>
    if c = sep then [] :: splitOnChar sep rest
    else
      match splitOnChar sep rest with
      | [] => [[c]]
      | h :: t => (c :: h) :: t

/-- Whitespace test used by Go `strings.Fields` (ASCII subset of
`unicode.IsSpace`, which covers every byte the ps output can contain). -/
def goIsSpace (c : Char) : Bool :=
  c = ' ' || c = '\t' || c = '\n' || c = '\x0B' || c = '\x0C' || c = '\r'

/-- Splitting on a character predicate; runs of matching characters produce
empty fields, which `goFields` then drops. -/
def splitOnPred (p : Char → Bool) : List Char → List (List Char)
  | [] => [[]]
  | c :: rest =>
    if p c then [] :: splitOnPred p rest
    else
      match splitOnPred p rest with
      | [] => [[c]]
      | h :: t => (c :: h) :: t

/-- Go `strings.Fields`: the maximal runs of non-whitespace characters. -/
def goFields (cs : List Char) : List (List Char) :=
  (splitOnPred goIsSpace cs).filter (fun f => ¬ f.isEmpty)

/-- Go `strings.Trim`: removes leading and trailing characters belonging to
the cutset. -/
def goTrim (cut : List Char) (cs : List Char) : List Char :=
  ((cs.dropWhile (fun c => cut.contains c)).reverse.dropWhile
    (fun c => cut.contains c)).reverse

/-- Go `strings.TrimSuffix`: removes one occurrence of the suffix when
present, otherwise returns the string unchanged. -/
def goTrimSuffix (suf : List Char) (cs : List Char) : List Char :=
  if suf.isSuffixOf cs then cs.take (cs.length - suf.length) else cs

/-- Numeric value of a run of decimal digit characters. -/
def digitsVal (ds : List Char) : ℕ :=
  ds.foldl (fun n c => n * 10 + (c.toNat - 48)) 0

/-- Go `strconv.Atoi`: optional sign, then one or more decimal digits,
nothing else; values outside the 64-bit int range are an error. A parse
error is `none` (the source only tests `err != nil`). -/
def goAtoi (cs : List Char) : Option Int :=
  let signSplit : Int × List Char :=
    match cs with
    | '+' :: r => (1, r)
    | '-' :: r => (-1, r)
    | r => (1, r)
  let sgn := signSplit.1
  let digits := signSplit.2
  if digits.isEmpty then none
  else if ¬ digits.all Char.isDigit then none
  else
    let v : Int := sgn * (digitsVal digits : Int)
    if v < -(2 ^ 63) then none
    else if (2 ^ 63 - 1 : Int) < v then none
    else some v

/-- Exponent part of a decimal float literal: optional sign then one or
more digits, scaling the mantissa by the corresponding power of ten. -/
def goParseExpPart (m : ℚ) (cs : List Char) : Option ℚ :=
  let signSplit : Int × List Char :=
    match cs with
    | '+' :: r => (1, r)
    | '-' :: r => (-1, r)
    | r => (1, r)
  let es := signSplit.1
  let digits := signSplit.2
  if digits.isEmpty then none
  else if ¬ digits.all Char.isDigit then none
  else some (m * (10 : ℚ) ^ (es * (digitsVal digits : Int)))

/-- Go `strconv.ParseFloat` on decimal forms: optional sign, digits with an
optional fractional part (at least one digit on one side of the dot), and
an optional exponent. A parse error is `none`. -/
def goParseFloat (cs : List Char) : Option ℚ :=
  let signSplit : ℚ × List Char :=
    match cs with
    | '+' :: r => (1, r)
    | '-' :: r => (-1, r)
    | r => (1, r)
  let sgn := signSplit.1
  let afterSign := signSplit.2
  let ip := afterSign.takeWhile Char.isDigit
  let r1 := afterSign.dropWhile Char.isDigit
  let fracSplit : List Char × List Char :=
    match r1 with
    | '.' :: r => (r.takeWhile Char.isDigit, r.dropWhile Char.isDigit)
    | r => ([], r)
  let fp := fracSplit.1
  let r2 := fracSplit.2
  if ip.isEmpty ∧ fp.isEmpty then none
  else
    let mant : ℚ := sgn * ((digitsVal ip : ℚ) + (digitsVal fp : ℚ) / (10 : ℚ) ^ fp.length)
    match r2 with
    | [] => some mant
    | 'e' :: r => goParseExpPart mant r
    | 'E' :: r => goParseExpPart mant r
    | _ => none

/-! ### Data model -/

/-- Check states of the sensu plugin SDK: `CheckStateOK = 0`,
`CheckStateWarning = 1`, `CheckStateCritical = 2`. -/
inductive CheckState
  | ok
  | warning
  | critical
deriving DecidableEq, Repr

/-- Plugin configuration (src/main.go `Config`): the `critical` and
`warning` float thresholds and the `sample-interval` integer, bound from
the command-line flags. -/
structure Config where
  critical : ℚ
  warning : ℚ
  interval : Int
deriving DecidableEq, Repr

/-- Flag defaults from the `options` table: critical 90, warning 75,
sample-interval 2. -/
def defaultConfig : Config := ⟨90, 75, 2⟩

/-- One process row (src/main.go `ProcessInfo`): PID, CPU percentage and
display name. The second revision uses an `int32` PID; both are modelled
as `Int`. -/
structure ProcessInfo where
  PID : Int
  CPU : ℚ
  Name : String
deriving DecidableEq, Repr

/-- One cumulative CPU times snapshot, the ten category counters of the
gopsutil `cpu.TimesStat` record read by `cpu.Times(false)`. -/
structure CpuTimes where
  user : ℚ
  system : ℚ
  idle : ℚ
  nice : ℚ
  iowait : ℚ
  irq : ℚ
  softirq : ℚ
  steal : ℚ
  guest : ℚ
  guestNice : ℚ
deriving DecidableEq, Repr

/-- The ten CPU time categories summed and differenced by `executeCheck`. -/
inductive CpuCategory
  | user
  | system
  | idle
  | nice
  | iowait
  | irq
  | softirq
  | steal
  | guest
  | guestNice
deriving DecidableEq, Repr

/-- Counter of one category inside a snapshot. -/
def catOf : CpuCategory → CpuTimes → ℚ
  | .user, t => t.user
  | .system, t => t.system
  | .idle, t => t.idle
  | .nice, t => t.nice
  | .iowait, t => t.iowait
  | .irq, t => t.irq
  | .softirq, t => t.softirq
  | .steal, t => t.steal
  | .guest, t => t.guest
  | .guestNice, t => t.guestNice

/-- All ten categories, in the order they appear in the source sums. -/
def allCats : List CpuCategory :=
  [.user, .system, .idle, .nice, .iowait, .irq, .softirq, .steal, .guest, .guestNice]

/-! ### CPU delta sampler (`executeCheck`, numeric part) -/

/-- The total of one snapshot: `start[0].User + ... + start[0].GuestNice`
(src/main.go lines 96 and 110). -/
def snapshotTotal (t : CpuTimes) : ℚ :=
  t.user + t.system + t.idle + t.nice + t.iowait + t.irq + t.softirq +
    t.steal + t.guest + t.guestNice

/-- The `diff := endTotal - startTotal` quantity of src/main.go line 112;
the spec calls it `totalDelta`. The source performs no positivity check on
it before dividing. -/
def totalDelta (a b : CpuTimes) : ℚ :=
  snapshotTotal b - snapshotTotal a

/-- Per-category percentage, the shape shared by the ten assignments of
src/main.go lines 113 and 116-124:
`pct = ((end[0].C - start[0].C) / diff) * 100`. -/
def categoryPct (c : CpuCategory) (a b : CpuTimes) : ℚ :=
  ((catOf c b - catOf c a) / totalDelta a b) * 100

/-- `usedPct := 100 - idlePct` (src/main.go line 114). -/
def usedPct (a b : CpuTimes) : ℚ :=
  100 - categoryPct .idle a b

/-! ### Argument validation (`checkArgs`) -/

/-- Embedding of `checkArgs` (src/main.go lines 74-88). Each test compares
against zero with `==`; a failure returns the sensu WARNING state together
with the error text, and passing every test returns OK with no error. -/
def checkArgs (cfg : Config) : CheckState × Option String :=
  if cfg.critical = 0 then (.warning, some "--critical is required")
  else if cfg.warning = 0 then (.warning, some "--warning is required")
  else if cfg.critical < cfg.warning then
    (.warning, some "--warning cannot be greater than --critical")
  else if cfg.interval = 0 then (.warning, some "--interval is required")
  else (.ok, none)

/-! ### Check execution (`executeCheck`, control flow) -/

/-- Embedding of `executeCheck` (src/main.go lines 90-147). The effectful
steps are inputs: the two `cpu.Times(false)` snapshot reads (`none` models
a read error) and the `getTopCPUProcesses` result. `time.ParseDuration`
on the `"%ds"` rendering of an integer never fails and the sleep has no
observable effect, so neither appears. On success the returned state is
picked by the two threshold comparisons of lines 137-146. -/
def executeCheck (cfg : Config) (startRes endRes : Option CpuTimes)
    (topRes : Except String (List ProcessInfo)) : Except String CheckState :=
  match startRes with
  | none => .error "error obtaining CPU timings"
  | some a =>
    match endRes with
    | none => .error "error obtaining CPU timings"
    | some b =>
      match topRes with
      | .error e => .error ("error obtaining top CPU processes: " ++ e)
      | .ok _ =>
        .ok (if cfg.critical < usedPct a b then .critical
             else if cfg.warning < usedPct a b then .warning
             else .ok)

/-! ### Process ranker, strategy A (`parseProcessOutput`) -/

/-- One darwin/linux `ps aux` row (src/main.go lines 178-196): at least 11
whitespace-separated fields, float CPU in field 2, integer PID in field 1,
name taken from field 10; a failed check or conversion skips the row. -/
def parseLineUnix (line : List Char) : Option ProcessInfo :=
  let fields := goFields line
  if h : fields.length < 11 then none
  else
    match goParseFloat (fields.get ⟨2, by omega⟩) with
    | none => none
    | some cpuVal =>
      match goAtoi (fields.get ⟨1, by omega⟩) with
      | none => none
      | some pid => some ⟨pid, cpuVal, String.mk (fields.get ⟨10, by omega⟩)⟩

/-- One windows `tasklist` CSV row (src/main.go lines 198-217): at least 8
comma-separated fields, CPU from field 7 after trimming quotes and a
trailing `" K"`, PID from field 1 and name from field 0 after trimming
quotes; a failed check or conversion skips the row. -/
def parseLineWindows (line : List Char) : Option ProcessInfo :=
  let fields := splitOnChar ',' line
  if h : fields.length < 8 then none
  else
    let cpuStr := goTrim [ '"' ] (fields.get ⟨7, by omega⟩)
    match goParseFloat (goTrimSuffix [ ' ', 'K' ] cpuStr) with
    | none => none
    | some cpuVal =>
      match goAtoi (goTrim [ '"' ] (fields.get ⟨1, by omega⟩)) with
      | none => none
      | some pid =>
        some ⟨pid, cpuVal, String.mk (goTrim [ '"' ] (fields.get ⟨0, by omega⟩))⟩

/-- The darwin/linux row loop: each row either contributes its parse or is
skipped (`continue`). -/
def parseRowsUnix : List (List Char) → List ProcessInfo
  | [] => []
  | line :: rest =>
    match parseLineUnix line with
    | none => parseRowsUnix rest
    | some p => p :: parseRowsUnix rest

/-- The windows row loop: each row either contributes its parse or is
skipped (`continue`). -/
def parseRowsWindows : List (List Char) → List ProcessInfo
  | [] => []
  | line :: rest =>
    match parseLineWindows line with
    | none => parseRowsWindows rest
    | some p => p :: parseRowsWindows rest

/-- The rows collected by `parseProcessOutput` before sorting: the output
split on newlines, the darwin/linux arm skipping the header line
(`lines[1:]`), the windows arm taking every line, and any other OS tag
falling through the `switch` with no rows at all. -/
def parsedRows (output os : String) : List ProcessInfo :=
  let lines := splitOnChar '\n' output.toList
  if os = "darwin" ∨ os = "linux" then parseRowsUnix (lines.drop 1)
  else if os = "windows" then parseRowsWindows lines
  else []

/-- Descending-CPU order, the comparator of both `sort.Slice` calls
(`processes[i].CPU > processes[j].CPU` taken as a non-strict sortedness
relation on the result). -/
def descRel (p q : ProcessInfo) : Prop := q.CPU ≤ p.CPU

instance : DecidableRel descRel :=
  fun p q => inferInstanceAs (Decidable (q.CPU ≤ p.CPU))

instance : IsTotal ProcessInfo descRel := ⟨fun a b => le_total b.CPU a.CPU⟩

instance : IsTrans ProcessInfo descRel := ⟨fun _ _ _ h1 h2 => le_trans h2 h1⟩

/-- Contract of `sort.Slice` with the descending-CPU comparator: the result
is some permutation of the input that is sorted descending. The Go
documentation explicitly does not guarantee stability, so the tie order of
the result is unconstrained. -/
def isSortSliceResult (l r : List ProcessInfo) : Prop :=
  l.Perm r ∧ r.Sorted descRel

/-- The truncation step `if len(processes) > 10 { processes = processes[:10] }`
(src/main.go lines 224-226). -/
def truncTen (s : List ProcessInfo) : List ProcessInfo :=
  if 10 < s.length then s.take 10 else s

/-- Allowed results of `parseProcessOutput` (src/main.go lines 172-229) on
a given output text and OS tag: parse the rows, sort them by any behaviour
`sort.Slice` permits, truncate to ten, and return with a nil error. -/
def parseProcessOutputRel (output os : String)
    (res : Except String (List ProcessInfo)) : Prop :=
  ∃ s, isSortSliceResult (parsedRows output os) s ∧ res = .ok (truncTen s)

/-- Allowed results of the first-revision `getTopCPUProcesses`
(src/main.go lines 149-170): an unrecognized OS is rejected before running
anything, a command failure is an error, and otherwise the result is a
`parseProcessOutput` result on the command output. -/
def getTopCPUProcessesA (os : String) (cmdOut : Except String String)
    (res : Except String (List ProcessInfo)) : Prop :=
  if os = "darwin" ∨ os = "linux" ∨ os = "windows" then
    match cmdOut with
    | .error e => res = .error ("error executing command: " ++ e)
    | .ok out => parseProcessOutputRel out os res
  else res = .error ("unsupported operating system: " ++ os)

/-! ### Process ranker, strategy B (second-revision `getTopCPUProcesses`) -/

/-- One enumerated process handle of the second revision, with the results
of its `CPUPercent()` and `Name()` queries (`none` models a query error,
for instance a process that exited between enumeration and query). -/
structure ProcQuery where
  pid : Int
  cpuPercent : Option ℚ
  name : Option String
deriving DecidableEq, Repr

/-- The collection loop of the second-revision `getTopCPUProcesses`: a
failing CPU or name query skips the process (`continue`), otherwise the
process is appended. -/
def processListOf : List ProcQuery → List ProcessInfo
  | [] => []
  | p :: rest =>
    match p.cpuPercent with
    | none => processListOf rest
    | some c =>
      match p.name with
      | none => processListOf rest
      | some n => ⟨p.pid, c, n⟩ :: processListOf rest

/-- Allowed results of the second-revision `getTopCPUProcesses`: a failed
process enumeration propagates its error, otherwise collect, sort under
the `sort.Slice` contract and truncate to ten. -/
def getTopCPUProcessesB (procsRes : Except String (List ProcQuery))
    (res : Except String (List ProcessInfo)) : Prop :=
  match procsRes with
  | .error e => res = .error e
  | .ok procs =>
    ∃ s, isSortSliceResult (processListOf procs) s ∧ res = .ok (truncTen s)

/-- Success test on a ranker result. -/
def isOkResult : Except String (List ProcessInfo) → Bool
  | .ok _ => true
  | .error _ => false

/-- One concrete allowed result of the sort-and-truncate step:
`List.insertionSort` sorts and, inserting each element in front of the
strictly smaller ones only, keeps ties in enumeration order. It also
serves as the formalisation of the ranking the spec describes (stable
descending sort, truncated to ten). -/
def stableRank (l : List ProcessInfo) : List ProcessInfo :=
  truncTen (List.insertionSort descRel l)

/-! ### Concrete inputs used by witnesses and counterexamples -/

/-- A snapshot with every counter zero; two uses of it form the identical
snapshot pair whose total delta is zero. -/
def snapZero : CpuTimes := ⟨0, 0, 0, 0, 0, 0, 0, 0, 0, 0⟩

/-- Snapshot reaching 80 percent non-idle usage against `snapZero`. -/
def snap80 : CpuTimes := ⟨80, 0, 20, 0, 0, 0, 0, 0, 0, 0⟩

/-- Snapshot reaching 95 percent non-idle usage against `snapZero`. -/
def snap95 : CpuTimes := ⟨95, 0, 5, 0, 0, 0, 0, 0, 0, 0⟩

/-- Snapshot reaching 50 percent non-idle usage against `snapZero`. -/
def snap50 : CpuTimes := ⟨50, 0, 50, 0, 0, 0, 0, 0, 0, 0⟩

/-- A configuration whose thresholds and interval are all strictly
negative, hence nonzero. -/
def negConfig : Config := ⟨-5, -10, -1⟩

/-- A ps-style output with two data rows carrying the same CPU value. -/
def tieInput : String :=
  "HDR\nu 1 5.0 0 0 0 0 0 0 0 cmd1\nu 2 5.0 0 0 0 0 0 0 0 cmd2"

/-- First data row of `tieInput`. -/
def tieP1 : ProcessInfo := ⟨1, 5, "cmd1"⟩

/-- Second data row of `tieInput`. -/
def tieP2 : ProcessInfo := ⟨2, 5, "cmd2"⟩

/-- A ps-style output with one malformed row between header and one good
row. -/
def mixedInput : String := "HDR\nbad row\nu 3 1.5 0 0 0 0 0 0 0 good"

/-- The single well-formed row of `mixedInput`. -/
def goodP : ProcessInfo := ⟨3, 3 / 2, "good"⟩

/-- A ps-style output with three data rows of distinct CPU values. -/
def threeInput : String :=
  "HDR\nu 1 1.0 0 0 0 0 0 0 0 pa\nu 2 3.0 0 0 0 0 0 0 0 pb\nu 3 2.0 0 0 0 0 0 0 0 pc"

/-- The rows of `threeInput` in descending CPU order. -/
def threeOut : List ProcessInfo := [⟨2, 3, "pb"⟩, ⟨3, 2, "pc"⟩, ⟨1, 1, "pa"⟩]

/-- A ps-style output whose single data row carries a negative CPU field. -/
def negCpuInput : String := "HDR\nu 7 -5.0 0 0 0 0 0 0 0 bad"

/-- The row `parseProcessOutput` builds from `negCpuInput`. -/
def negCpuP : ProcessInfo := ⟨7, -5, "bad"⟩

/-! ### Helper lemmas -/

lemma parseRowsUnix_eq_filterMap (lines : List (List Char)) :
    parseRowsUnix lines = lines.filterMap parseLineUnix := by
  induction lines with
  | nil => rfl
  | cons line rest ih =>
    simp only [parseRowsUnix, List.filterMap_cons]
    cases parseLineUnix line <;> simp [ih]

lemma parseRowsWindows_eq_filterMap (lines : List (List Char)) :
    parseRowsWindows lines = lines.filterMap parseLineWindows := by
  induction lines with
  | nil => rfl
  | cons line rest ih =>
    simp only [parseRowsWindows, List.filterMap_cons]
    cases parseLineWindows line <;> simp [ih]

lemma insertionSort_allowed (l : List ProcessInfo) :
    isSortSliceResult l (List.insertionSort descRel l) :=
  ⟨(List.perm_insertionSort descRel l).symm, List.sorted_insertionSort descRel l⟩

lemma truncTen_sorted {s : List ProcessInfo} (h : s.Sorted descRel) :
    (truncTen s).Sorted descRel := by
  unfold truncTen
  split
  · exact List.Pairwise.sublist (List.take_sublist 10 s) h
  · exact h

lemma truncTen_length_le (s : List ProcessInfo) : (truncTen s).length ≤ 10 := by
  unfold truncTen
  split
  · rw [List.length_take]
    omega
  · omega

lemma truncTen_subset (s : List ProcessInfo) : ∀ p ∈ truncTen s, p ∈ s := by
  unfold truncTen
  split
  · intro p hp
    exact List.mem_of_mem_take hp
  · intro p hp
    exact hp

lemma truncTen_of_le {s : List ProcessInfo} (h : ¬ 10 < s.length) : truncTen s = s :=
  if_neg h

lemma parsedRows_unsupported {os : String} (h1 : os ≠ "darwin") (h2 : os ≠ "linux")
    (h3 : os ≠ "windows") (output : String) : parsedRows output os = [] := by
  unfold parsedRows
  simp [h1, h2, h3]

/-! ### Claim theorems -/

/-- C1: the spec requires `sample()` to fail with a `MeasurementError`
whenever the total delta between the two snapshots is not positive, and
never to divide by it. The code computes `diff := endTotal - startTotal`
and divides immediately, with no check at all: on the failing input of two
identical snapshots the embedded check still returns a successful
threshold status instead of an error. (In the Go float semantics the
divisions yield NaN there; in this exact embedding division by zero is
total. Either way no error path exists.) -/
theorem executeCheck_no_guard_on_zero_delta :
    totalDelta snapZero snapZero = 0 ∧
    ∃ s, executeCheck defaultConfig (some snapZero) (some snapZero) (Except.ok []) =
      Except.ok s :=
  ⟨by decide, ⟨.critical, by decide⟩⟩

/-- C2 counterexample: the claim requires ties to be broken by original
enumeration order (a stable sort). The code sorts with `sort.Slice`, which
is documented as unstable, so the allowed-result contract admits an
outcome with two equal-CPU rows swapped, which differs from the stable
ranking `stableRank`. -/
theorem sortSlice_tie_order_not_stable :
    parseProcessOutputRel tieInput "linux" (Except.ok [tieP2, tieP1]) ∧
    [tieP2, tieP1] ≠ stableRank (parsedRows tieInput "linux") := by
  constructor
  · exact ⟨[tieP2, tieP1], ⟨by decide, by decide⟩, by decide⟩
  · decide

/-- C2 amended: every list either ranker implementation may return is
sorted by CPU percentage descending and holds at most 10 entries; the tie
order among equal CPU values is unspecified because `sort.Slice` is not a
stable sort. -/
theorem ranked_list_sorted_and_truncated :
    (∀ output os l, parseProcessOutputRel output os (Except.ok l) →
        l.Sorted descRel ∧ l.length ≤ 10) ∧
    (∀ procs l, getTopCPUProcessesB procs (Except.ok l) →
        l.Sorted descRel ∧ l.length ≤ 10) := by
  constructor
  · intro output os l h
    obtain ⟨s, ⟨_, hsort⟩, heq⟩ := h
    have hl : l = truncTen s := by injection heq
    subst hl
    exact ⟨truncTen_sorted hsort, truncTen_length_le s⟩
  · intro procs l h
    cases procs with
    | error e => simp [getTopCPUProcessesB] at h
    | ok ps =>
      obtain ⟨s, ⟨_, hsort⟩, heq⟩ := h
      have hl : l = truncTen s := by injection heq
      subst hl
      exact ⟨truncTen_sorted hsort, truncTen_length_le s⟩

/-- C2 witness: the amended theorem evaluated on the concrete tie input. -/
theorem ranked_list_sorted_and_truncated_wit :
    ([tieP2, tieP1] : List ProcessInfo).Sorted descRel ∧
    ([tieP2, tieP1] : List ProcessInfo).length ≤ 10 :=
  ranked_list_sorted_and_truncated.1 tieInput "linux" [tieP2, tieP1]
    ⟨[tieP2, tieP1], ⟨by decide, by decide⟩, by decide⟩

/-- C3: for any snapshot pair with positive total delta, the ten category
percentages of the sampler sum to exactly 100 (the embedding computes over
the rationals, so the floating-point epsilon of the claim is zero here). -/
theorem categoryPct_sum_eq_100 (a b : CpuTimes) (h : 0 < totalDelta a b) :
    (allCats.map fun c => categoryPct c a b).sum = 100 := by
  have hne : totalDelta a b ≠ 0 := ne_of_gt h
  simp only [allCats, List.map_cons, List.map_nil, List.sum_cons, List.sum_nil,
    categoryPct, catOf]
  field_simp
  simp only [totalDelta, snapshotTotal]
  ring

/-- C3 witness: the percentage sum at a concrete snapshot pair of total
delta 100. -/
theorem categoryPct_sum_eq_100_wit :
    0 < totalDelta snapZero snap80 ∧
    (allCats.map fun c => categoryPct c snapZero snap80).sum = 100 :=
  ⟨by decide, categoryPct_sum_eq_100 snapZero snap80 (by decide)⟩

/-- C4: with the snapshots and the process list acquired, the check
returns CRITICAL when usedPct exceeds the critical threshold, otherwise
WARNING when it exceeds the warning threshold, otherwise OK (stated under
the valid-pair hypothesis `warning ≤ critical` of the claim). -/
theorem executeCheck_threshold_classification (cfg : Config) (a b : CpuTimes)
    (l : List ProcessInfo) (hvalid : cfg.warning ≤ cfg.critical) :
    (cfg.critical < usedPct a b →
      executeCheck cfg (some a) (some b) (Except.ok l) = Except.ok .critical) ∧
    (¬ cfg.critical < usedPct a b → cfg.warning < usedPct a b →
      executeCheck cfg (some a) (some b) (Except.ok l) = Except.ok .warning) ∧
    (¬ cfg.critical < usedPct a b → ¬ cfg.warning < usedPct a b →
      executeCheck cfg (some a) (some b) (Except.ok l) = Except.ok .ok) := by
  refine ⟨fun h1 => ?_, fun h1 h2 => ?_, fun h1 h2 => ?_⟩
  · simp [executeCheck, h1]
  · simp [executeCheck, h1, h2]
  · simp [executeCheck, h1, h2]

/-- C4 witness: the three end-to-end cases of the spec at the default
thresholds (critical 90, warning 75): usedPct 95 is CRITICAL, 80 is
WARNING, 50 is OK. -/
theorem executeCheck_threshold_classification_wit :
    executeCheck defaultConfig (some snapZero) (some snap95) (Except.ok []) =
        Except.ok .critical ∧
    executeCheck defaultConfig (some snapZero) (some snap80) (Except.ok []) =
        Except.ok .warning ∧
    executeCheck defaultConfig (some snapZero) (some snap50) (Except.ok []) =
        Except.ok .ok :=
  ⟨(executeCheck_threshold_classification defaultConfig snapZero snap95 []
      (by decide)).1 (by decide),
   (executeCheck_threshold_classification defaultConfig snapZero snap80 []
      (by decide)).2.1 (by decide) (by decide),
   (executeCheck_threshold_classification defaultConfig snapZero snap50 []
      (by decide)).2.2 (by decide) (by decide)⟩

/-- C5 counterexample: the claim says validation rejects every
configuration whose critical, warning or sample-interval is not strictly
positive. `checkArgs` only compares each against zero, so a configuration
with strictly negative critical, warning and interval passes validation
with an OK state. -/
theorem checkArgs_accepts_nonpositive_values :
    checkArgs negConfig = (.ok, none) ∧
    negConfig.critical < 0 ∧ negConfig.warning < 0 ∧ negConfig.interval < 0 := by
  refine ⟨by decide, by decide, by decide, by decide⟩

/-- C5 amended: `checkArgs` rejects, with a WARNING state, exactly the
configurations where critical is zero, warning is zero, warning exceeds
critical, or the interval is zero; every other configuration passes with
OK. Zero is the only magnitude test: strictly negative values pass. -/
theorem checkArgs_rejects_exactly (cfg : Config) :
    ((checkArgs cfg).1 = .warning ↔
      (cfg.critical = 0 ∨ cfg.warning = 0 ∨ cfg.critical < cfg.warning ∨
        cfg.interval = 0)) ∧
    ((checkArgs cfg).1 = .warning ∨ (checkArgs cfg).1 = .ok) := by
  unfold checkArgs
  split_ifs with h1 h2 h3 h4 <;> simp_all

/-- C6: rows that fail to parse are skipped and only they are skipped: on
both platforms the row loop equals a filterMap of the per-row parser over
the data lines, the acquisition result is always a success, and every
returned sample comes from a row that parsed. -/
theorem parse_skips_malformed_rows :
    (∀ lines, parseRowsUnix lines = lines.filterMap parseLineUnix) ∧
    (∀ lines, parseRowsWindows lines = lines.filterMap parseLineWindows) ∧
    (∀ output os res, parseProcessOutputRel output os res → isOkResult res = true) ∧
    (∀ output os l, parseProcessOutputRel output os (Except.ok l) →
      ∀ p ∈ l, p ∈ parsedRows output os) := by
  refine ⟨parseRowsUnix_eq_filterMap, parseRowsWindows_eq_filterMap, ?_, ?_⟩
  · intro output os res h
    obtain ⟨s, _, rfl⟩ := h
    rfl
  · intro output os l h p hp
    obtain ⟨s, ⟨hperm, _⟩, heq⟩ := h
    have hl : l = truncTen s := by injection heq
    subst hl
    exact hperm.mem_iff.mpr (truncTen_subset s p hp)

/-- C6 witness: on an output with one malformed and one good row, the
acquisition succeeds and the returned sample is the good row. -/
theorem parse_skips_malformed_rows_wit :
    isOkResult (Except.ok [goodP]) = true ∧ goodP ∈ parsedRows mixedInput "linux" :=
  ⟨parse_skips_malformed_rows.2.2.1 mixedInput "linux" (Except.ok [goodP])
      ⟨[goodP], ⟨by decide, by decide⟩, by decide⟩,
   parse_skips_malformed_rows.2.2.2 mixedInput "linux" [goodP]
      ⟨[goodP], ⟨by decide, by decide⟩, by decide⟩ goodP (by decide)⟩

/-- C7: when fewer than 10 rows parse, the ranker returns all of them (a
permutation of the parsed rows, nothing dropped or padded), still sorted
descending. -/
theorem fewer_than_limit_returns_all (output os : String) (l : List ProcessInfo)
    (h : parseProcessOutputRel output os (Except.ok l))
    (hfew : (parsedRows output os).length < 10) :
    (parsedRows output os).Perm l ∧ l.Sorted descRel := by
  obtain ⟨s, ⟨hperm, hsort⟩, heq⟩ := h
  have hl : l = truncTen s := by injection heq
  have hlen : s.length = (parsedRows output os).length := hperm.length_eq.symm
  have ht : truncTen s = s := truncTen_of_le (by omega)
  subst hl
  rw [ht]
  exact ⟨hperm, hsort⟩

/-- C7 witness: three parsable rows against the limit of ten come back
complete and sorted. -/
theorem fewer_than_limit_returns_all_wit :
    (parsedRows threeInput "linux").Perm threeOut ∧ threeOut.Sorted descRel :=
  fewer_than_limit_returns_all threeInput "linux" threeOut
    ⟨threeOut, ⟨by decide, by decide⟩, by decide⟩ (by decide)

/-- C8: each category percentage is the category delta divided by the
total delta times 100, and usedPct is 100 minus the idle percentage,
exactly as the source computes them. -/
theorem sampler_percent_formulas (a b : CpuTimes) (h : 0 < totalDelta a b) :
    (∀ c, categoryPct c a b = ((catOf c b - catOf c a) / totalDelta a b) * 100) ∧
    usedPct a b = 100 - categoryPct .idle a b :=
  ⟨fun _ => rfl, rfl⟩

/-- C8 witness: the formulas instantiated at a concrete snapshot pair with
total delta 100. -/
theorem sampler_percent_formulas_wit :
    categoryPct .user snapZero snap80 =
      ((catOf .user snap80 - catOf .user snapZero) / totalDelta snapZero snap80) * 100 ∧
    usedPct snapZero snap80 = 100 - categoryPct .idle snapZero snap80 :=
  ⟨(sampler_percent_formulas snapZero snap80 (by decide)).1 .user,
   (sampler_percent_formulas snapZero snap80 (by decide)).2⟩

/-- C9 counterexample: the claim says every returned sample has a
non-negative cpuUsagePercent for every input text, but the parser applies
no sign check: an input row whose CPU field is negative produces a sample
with negative CPU. -/
theorem parser_emits_negative_cpu :
    parseProcessOutputRel negCpuInput "linux" (Except.ok [negCpuP]) ∧ negCpuP.CPU < 0 :=
  ⟨⟨[negCpuP], ⟨by decide, by decide⟩, by decide⟩, by decide⟩

/-- C9 amended: every returned sample has non-negative cpuUsagePercent
provided every row that parses carries a non-negative CPU value (the
sampler only ever reorders and truncates the parsed rows). -/
theorem samples_nonneg_from_nonneg_rows (output os : String) (l : List ProcessInfo)
    (h : parseProcessOutputRel output os (Except.ok l))
    (hrows : ∀ p ∈ parsedRows output os, 0 ≤ p.CPU) :
    ∀ p ∈ l, 0 ≤ p.CPU := by
  obtain ⟨s, ⟨hperm, _⟩, heq⟩ := h
  have hl : l = truncTen s := by injection heq
  subst hl
  intro p hp
  exact hrows p (hperm.mem_iff.mpr (truncTen_subset s p hp))

/-- C9 witness: the amended theorem at the concrete three-row input. -/
theorem samples_nonneg_from_nonneg_rows_wit :
    0 ≤ (⟨2, 3, "pb"⟩ : ProcessInfo).CPU :=
  samples_nonneg_from_nonneg_rows threeInput "linux" threeOut
    ⟨threeOut, ⟨by decide, by decide⟩, by decide⟩ (by decide) ⟨2, 3, "pb"⟩ (by decide)

/-- C10: `parseProcessOutput` is total and never produces an error: on
every output text and OS tag some result is allowed, all allowed results
are successes, an unrecognized OS tag yields the empty list, and an
acquisition error can only come from the external command step or an
unsupported OS, never from parsing. -/
theorem parse_total_never_errors (output os : String) :
    parseProcessOutputRel output os (Except.ok (stableRank (parsedRows output os))) ∧
    (∀ res, parseProcessOutputRel output os res → isOkResult res = true) ∧
    ((os ≠ "darwin" ∧ os ≠ "linux" ∧ os ≠ "windows") →
      ∀ res, parseProcessOutputRel output os res → res = Except.ok []) ∧
    (∀ cmdOut res, getTopCPUProcessesA os cmdOut res → isOkResult res = false →
      (∃ e, cmdOut = Except.error e) ∨
        (os ≠ "darwin" ∧ os ≠ "linux" ∧ os ≠ "windows")) := by
  refine ⟨⟨List.insertionSort descRel (parsedRows output os),
      insertionSort_allowed _, rfl⟩, ?_, ?_, ?_⟩
  · intro res h
    obtain ⟨s, _, rfl⟩ := h
    rfl
  · intro hos res h
    obtain ⟨s, ⟨hperm, _⟩, rfl⟩ := h
    rw [parsedRows_unsupported hos.1 hos.2.1 hos.2.2] at hperm
    have hs : s = [] := hperm.symm.eq_nil
    subst hs
    rfl
  · intro cmdOut res hrel hfail
    unfold getTopCPUProcessesA at hrel
    by_cases hos : os = "darwin" ∨ os = "linux" ∨ os = "windows"
    · rw [if_pos hos] at hrel
      cases cmdOut with
      | error e => exact Or.inl ⟨e, rfl⟩
      | ok out =>
        obtain ⟨s, _, rfl⟩ := hrel
        simp [isOkResult] at hfail
    · rw [if_neg hos] at hrel
      push_neg at hos
      exact Or.inr hos

/-- C10 witness: at an unrecognized OS tag the parse step still succeeds,
with the empty list. -/
theorem parse_total_never_errors_wit :
    isOkResult (Except.ok ([] : List ProcessInfo)) = true ∧
    (Except.ok ([] : List ProcessInfo) : Except String (List ProcessInfo)) =
      Except.ok [] :=
  ⟨(parse_total_never_errors "x" "plan9").2.1 (Except.ok [])
      ⟨[], ⟨by decide, by decide⟩, by decide⟩,
   (parse_total_never_errors "x" "plan9").2.2.1 (by decide) (Except.ok [])
      ⟨[], ⟨by decide, by decide⟩, by decide⟩⟩

end CpuProfiler
